import Mathlib

/-!
# Chunk geometry, chunk state machine and cover-art equality

A shallow embedding of `src/cachingreaderchunk.h` and `src/library/coverart.h`.

* `SINT` is a signed machine integer. Its values are the integers of a fixed
  width, and the result of every arithmetic operator is reduced to that width
  (the two's complement value that the machine instruction leaves), so that a
  product which leaves the range is visible in the model. C++ itself gives a
  signed overflow no meaning; every statement below that is proved for all
  inputs therefore carries the condition under which no operator overflows.
* C++ `/` and `%` on signed integers truncate toward zero: `Int.tdiv`, `Int.tmod`.
* `DEBUG_ASSERT(cond)` stops the call when assertions are compiled in and the
  condition is false; a function whose body starts with it returns an `Option`,
  `none` standing for the failed assertion.
-/

namespace Mixxx

/-! ## Build configuration -/

/-- Everything the header takes from outside: the width of `SINT`, the two
`static const SINT` members `kChannels` and `kFrames` (declared in the header,
defined elsewhere), and whether `DEBUG_ASSERT` is compiled in. -/
structure Config where
  /-- width of `SINT` in bits -/
  sintBits : Nat
  /-- the constant `CachingReaderChunkWorker::kChannels` -/
  kChannels : Int
  /-- the constant `CachingReaderChunkWorker::kFrames` -/
  kFrames : Int
  /-- whether `DEBUG_ASSERT` is active -/
  debugAsserts : Bool
deriving DecidableEq, Repr

/-- Half of the number of `SINT` values: `SINT` ranges over `[-half, half)`. -/
def sintHalf (cfg : Config) : Int := 2 ^ (cfg.sintBits - 1)

/-- Smallest `SINT`. -/
def sintMin (cfg : Config) : Int := -sintHalf cfg

/-- Largest `SINT`. -/
def sintMax (cfg : Config) : Int := sintHalf cfg - 1

/-- The integer `x` is a value of type `SINT`. -/
def isSINT (cfg : Config) (x : Int) : Prop := sintMin cfg ≤ x ∧ x ≤ sintMax cfg

instance (cfg : Config) (x : Int) : Decidable (isSINT cfg x) := by
  unfold isSINT; exact inferInstance

/-- Reduction of a mathematical result to the `SINT` that the machine stores. -/
def wrapSINT (cfg : Config) (x : Int) : Int :=
  (x + sintHalf cfg) % (2 * sintHalf cfg) - sintHalf cfg

/-- The product `a * b` on `SINT`. -/
def sintMul (cfg : Config) (a b : Int) : Int := wrapSINT cfg (a * b)

/-- The quotient `a / b` on `SINT`, truncated toward zero. C++ leaves the
division by zero undefined; the statements below divide by positive constants. -/
def sintDiv (cfg : Config) (a b : Int) : Int := wrapSINT cfg (Int.tdiv a b)

/-- The remainder `a % b` on `SINT`, that of the truncating division (its sign
is the sign of `a`). -/
def sintMod (cfg : Config) (a b : Int) : Int := wrapSINT cfg (Int.tmod a b)

/-- Modelled from the spec: the macro `DEBUG_ASSERT` is defined outside the
sources at hand. A violated precondition "fails fast via an assertion in debug
builds" and is "unchecked in release builds": no result when assertions are
active and `cond` is false, otherwise execution continues. -/
def DEBUG_ASSERT (cfg : Config) (cond : Bool) : Option Unit :=
  if cfg.debugAsserts && !cond then none else some ()

/-- Modelled from the spec: `Mixxx::AudioSource::getMinFrameIndex()` is declared
in `sources/audiosource.h`, outside the sources at hand. It is the "minimum valid
frame index of the source", and valid frame indices are those with `f ≥ 0`. -/
def getMinFrameIndex : Int := 0

/-! ## `CachingReaderChunkWorker`: static geometry helpers -/

/-- The chunk index for a frame index.
```
DEBUG_ASSERT(Mixxx::AudioSource::getMinFrameIndex() <= frameIndex);
const SINT chunkIndex = frameIndex / kFrames;
return chunkIndex;
``` -/
def indexForFrame (cfg : Config) (frameIndex : Int) : Option Int := do
  DEBUG_ASSERT cfg (decide (getMinFrameIndex ≤ frameIndex))
  let chunkIndex := sintDiv cfg frameIndex cfg.kFrames
  return chunkIndex

/-- The first frame index of a chunk.
```
DEBUG_ASSERT(0 <= chunkIndex);
return chunkIndex * kFrames;
``` -/
def frameForIndex (cfg : Config) (chunkIndex : Int) : Option Int := do
  DEBUG_ASSERT cfg (decide (0 ≤ chunkIndex))
  return sintMul cfg chunkIndex cfg.kFrames

/-- Converts frames to samples: `return frames * kChannels;` -/
def frames2samples (cfg : Config) (frames : Int) : Int :=
  sintMul cfg frames cfg.kChannels

/-- Converts samples to frames.
```
DEBUG_ASSERT(0 == (samples % kChannels));
return samples / kChannels;
``` -/
def samples2frames (cfg : Config) (samples : Int) : Option Int := do
  DEBUG_ASSERT cfg (decide (0 = sintMod cfg samples cfg.kChannels))
  return sintDiv cfg samples cfg.kChannels

/-! ## `CachingReaderChunk`: the cache-facing chunk -/

/-- The chunk states, `enum State { FREE, READY, READ_PENDING }`. -/
inductive State where
  | FREE
  | READY
  | READ_PENDING
deriving DecidableEq, Repr

/-- The data members of a `CachingReaderChunk` (those of its base class
`CachingReaderChunkWorker` included). Pointers are addresses. -/
structure CachingReaderChunk where
  m_index : Int
  m_sampleBuffer : Nat
  m_frameCount : Int
  m_state : State
  m_pPrev : Option Nat
  m_pNext : Option Nat
deriving DecidableEq, Repr

/-- Getter `SINT getIndex() const { return m_index; }` -/
def CachingReaderChunk.getIndex (c : CachingReaderChunk) : Int := c.m_index

/-- Validity `bool isValid() const { return 0 <= getIndex(); }` -/
def CachingReaderChunk.isValid (c : CachingReaderChunk) : Bool := decide (0 ≤ c.getIndex)

/-- Getter `SINT getFrameCount() const { return m_frameCount; }` -/
def CachingReaderChunk.getFrameCount (c : CachingReaderChunk) : Int := c.m_frameCount

/-- Getter `State getState() const { return m_state; }` -/
def CachingReaderChunk.getState (c : CachingReaderChunk) : State := c.m_state

/-- Hands the chunk to the worker.
```
DEBUG_ASSERT(READY == m_state);
m_state = READ_PENDING;
``` -/
def CachingReaderChunk.beginReading (cfg : Config) (c : CachingReaderChunk) :
    Option CachingReaderChunk := do
  DEBUG_ASSERT cfg (decide (State.READY = c.m_state))
  return { c with m_state := State.READ_PENDING }

/-- Takes the chunk back from the worker.
```
DEBUG_ASSERT(READ_PENDING == m_state);
m_state = READY;
``` -/
def CachingReaderChunk.finishReading (cfg : Config) (c : CachingReaderChunk) :
    Option CachingReaderChunk := do
  DEBUG_ASSERT cfg (decide (State.READ_PENDING = c.m_state))
  return { c with m_state := State.READY }

/-! ## `CoverInfo` and `CoverArt` -/

/-- The enumeration `CoverInfo::Source`. -/
inductive Source where
  | UNKNOWN
  | GUESSED
  | USER_SELECTED
deriving DecidableEq, Repr

/-- The enumeration `CoverInfo::Type`. -/
inductive CoverType where
  | NONE
  | METADATA
  | FILE
deriving DecidableEq, Repr

/-- The record `struct CoverInfo`; a `QString` of the Qt library is a `String`. -/
structure CoverInfo where
  source : Source
  type : CoverType
  trackId : Int
  coverLocation : String
  trackLocation : String
  hash : String
deriving DecidableEq, Repr

/-- The operator `CoverInfo::operator==`, called on `self` with argument `other`.
```
return other.source == source && other.type == type &&
       other.coverLocation == coverLocation &&
       other.trackLocation == trackLocation && other.hash == hash;
``` -/
def CoverInfo.eq (self other : CoverInfo) : Bool :=
  decide (other.source = self.source) &&
    decide (other.type = self.type) &&
    decide (other.coverLocation = self.coverLocation) &&
    decide (other.trackLocation = self.trackLocation) &&
    decide (other.hash = self.hash)

/-- The operator `CoverInfo::operator!=`: `return !(*this == other);` -/
def CoverInfo.ne (self other : CoverInfo) : Bool := !(self.eq other)

/-- A `QImage` of the Qt library, as far as `CoverArt` looks at it: either the
null image or an image with a width, a height and pixel data. -/
structure QImage where
  /-- no data (`none`) for the null image, else width, height and the pixels -/
  data : Option (Nat × Nat × List Nat)
deriving DecidableEq, Repr

/-- The test `QImage::isNull()`. -/
def QImage.isNull (img : QImage) : Bool := img.data.isNone

/-- The operator `QImage::operator==`: same contents. -/
def QImage.eq (self other : QImage) : Bool := decide (self = other)

/-- The record `struct CoverArt`. -/
structure CoverArt where
  info : CoverInfo
  image : QImage
deriving DecidableEq, Repr

/-- The operator `CoverArt::operator==`, called on `self` with argument `other`.
```
// Only count image in the equality if both are non-null.
return other.info == info &&
        (other.image.isNull() || image.isNull() ||
         other.image == image);
``` -/
def CoverArt.eq (self other : CoverArt) : Bool :=
  other.info.eq self.info &&
    (other.image.isNull || self.image.isNull || other.image.eq self.image)

/-- The operator `CoverArt::operator!=`: `return !(*this == other);` -/
def CoverArt.ne (self other : CoverArt) : Bool := !(self.eq other)

/-! ## Concrete configurations and values used in the examples -/

/-- A build with 64-bit `SINT`, stereo, 8192 frames per chunk, assertions active. -/
def cfg64 : Config :=
  { sintBits := 64, kChannels := 2, kFrames := 8192, debugAsserts := true }

/-- The configuration `cfg64` with assertions compiled out. -/
def cfg64Release : Config := { cfg64 with debugAsserts := false }

/-- The configuration of the scenario of the specification: 1000 frames per
chunk, two channels. -/
def cfgScenario : Config :=
  { sintBits := 64, kChannels := 2, kFrames := 1000, debugAsserts := true }

/-- An unassigned chunk. -/
def freeChunk : CachingReaderChunk :=
  { m_index := -1, m_sampleBuffer := 4096, m_frameCount := 0,
    m_state := State.FREE, m_pPrev := none, m_pNext := none }

/-- A chunk holding frames `[24576, 32768)`. -/
def readyChunk : CachingReaderChunk :=
  { m_index := 3, m_sampleBuffer := 4096, m_frameCount := 8192,
    m_state := State.READY, m_pPrev := none, m_pNext := some 8192 }


/-- Cover information of a track with a guessed cover file. -/
def sampleInfo : CoverInfo :=
  { source := Source.GUESSED, type := CoverType.FILE, trackId := 7,
    coverLocation := "cover.jpg", trackLocation := "/music/track.mp3", hash := "8c1f" }

/-- A cover with a 1x1 image holding the pixel 0. -/
def artA : CoverArt := { info := sampleInfo, image := { data := some (1, 1, [0]) } }

/-- The same cover information with no image loaded. -/
def artB : CoverArt := { info := sampleInfo, image := { data := none } }

/-- The same cover information with a 1x1 image holding the pixel 255. -/
def artC : CoverArt := { info := sampleInfo, image := { data := some (1, 1, [255]) } }

/-! ## Auxiliary facts -/

theorem sintHalf_pos (cfg : Config) : 0 < sintHalf cfg := by
  unfold sintHalf; positivity

theorem wrapSINT_of_isSINT (cfg : Config) (x : Int) (h : isSINT cfg x) :
    wrapSINT cfg x = x := by
  have hp := sintHalf_pos cfg
  obtain ⟨h1, h2⟩ := h
  unfold sintMin at h1
  unfold sintMax at h2
  unfold wrapSINT
  rw [Int.emod_eq_of_lt (by omega) (by omega)]
  omega

theorem isSINT_of_between (cfg : Config) (a b x : Int) (ha : isSINT cfg a)
    (hb : isSINT cfg b) (h1 : a ≤ x) (h2 : x ≤ b) : isSINT cfg x :=
  ⟨le_trans ha.1 h1, le_trans h2 hb.2⟩

theorem isSINT_zero (cfg : Config) : isSINT cfg 0 := by
  have hp := sintHalf_pos cfg
  unfold isSINT sintMin sintMax
  omega

theorem DEBUG_ASSERT_true (cfg : Config) : DEBUG_ASSERT cfg true = some () := by
  simp [DEBUG_ASSERT]

theorem DEBUG_ASSERT_release (cfg : Config) (h : cfg.debugAsserts = false) (b : Bool) :
    DEBUG_ASSERT cfg b = some () := by
  simp [DEBUG_ASSERT, h]

theorem DEBUG_ASSERT_false (cfg : Config) (h : cfg.debugAsserts = true) :
    DEBUG_ASSERT cfg false = none := by
  simp [DEBUG_ASSERT, h]

/-- On a non-negative frame index the truncating quotient is the floor
quotient, it is a `SINT`, and the assertion of `indexForFrame` holds. -/
theorem indexForFrame_of_nonneg (cfg : Config) (f : Int) (hk : 0 < cfg.kFrames)
    (hf0 : 0 ≤ f) (hf : isSINT cfg f) :
    indexForFrame cfg f = some (f / cfg.kFrames) := by
  have hq0 : 0 ≤ f / cfg.kFrames := Int.ediv_nonneg hf0 hk.le
  have hqf : f / cfg.kFrames ≤ f := by
    have := Int.ediv_mul_le f (ne_of_gt hk)
    nlinarith
  have hq : isSINT cfg (f / cfg.kFrames) :=
    isSINT_of_between cfg 0 f _ (isSINT_zero cfg) hf hq0 hqf
  have hd : decide (getMinFrameIndex ≤ f) = true := by
    simpa [getMinFrameIndex] using hf0
  simp only [indexForFrame, hd, DEBUG_ASSERT_true, sintDiv, Int.tdiv_eq_ediv hf0 hk.le,
    wrapSINT_of_isSINT cfg _ hq]
  rfl

/-- On a non-negative chunk index whose first frame is a `SINT` the product
does not wrap. -/
theorem frameForIndex_of_nonneg (cfg : Config) (i : Int) (hi0 : 0 ≤ i)
    (hp : isSINT cfg (i * cfg.kFrames)) :
    frameForIndex cfg i = some (i * cfg.kFrames) := by
  have hd : decide (0 ≤ i) = true := by simpa using hi0
  simp only [frameForIndex, hd, DEBUG_ASSERT_true, sintMul, wrapSINT_of_isSINT cfg _ hp]
  rfl

/-- Bounds of the truncating quotient by a positive divisor: it lies between
zero and the dividend. -/
theorem tdiv_between (a k : Int) (hk : 0 < k) :
    (0 ≤ a → 0 ≤ Int.tdiv a k ∧ Int.tdiv a k ≤ a) ∧
    (a ≤ 0 → a ≤ Int.tdiv a k ∧ Int.tdiv a k ≤ 0) := by
  have key : ∀ b : Int, 0 ≤ b → 0 ≤ Int.tdiv b k ∧ Int.tdiv b k ≤ b := by
    intro b hb
    rw [Int.tdiv_eq_ediv hb hk.le]
    have h1 : 0 ≤ b / k := Int.ediv_nonneg hb hk.le
    have h2 := Int.ediv_mul_le b (ne_of_gt hk)
    exact ⟨h1, by nlinarith⟩
  refine ⟨key a, fun ha => ?_⟩
  have h := key (-a) (by omega)
  rw [Int.neg_tdiv] at h
  omega

/-- The truncating quotient of a `SINT` by a positive divisor is a `SINT`. -/
theorem isSINT_tdiv (cfg : Config) (a k : Int) (hk : 0 < k) (ha : isSINT cfg a) :
    isSINT cfg (Int.tdiv a k) := by
  have hz := isSINT_zero cfg
  obtain ⟨h1, h2⟩ := tdiv_between a k hk
  rcases le_total 0 a with h | h
  · exact isSINT_of_between cfg 0 a _ hz ha (h1 h).1 (h1 h).2
  · exact isSINT_of_between cfg a 0 _ ha hz (h2 h).1 (h2 h).2

/-- The remainder of a truncating division by a positive `SINT` is a `SINT`. -/
theorem isSINT_tmod (cfg : Config) (a k : Int) (hk : 0 < k) (hkS : isSINT cfg k) :
    isSINT cfg (Int.tmod a k) := by
  have hp := sintHalf_pos cfg
  have hlt := Int.tmod_lt_of_pos a hk
  have hneg : -k < Int.tmod a k := by
    have e := Int.tmod_add_tdiv a k
    rcases le_total 0 a with h | h
    · have := Int.tmod_nonneg k h
      omega
    · have e2 := Int.tmod_add_tdiv (-a) k
      have h3 := Int.tmod_lt_of_pos (-a) hk
      rw [Int.neg_tdiv] at e2
      have : Int.tmod (-a) k = -Int.tmod a k := by
        have : k * -(Int.tdiv a k) = -(k * Int.tdiv a k) := by ring
        omega
      omega
  obtain ⟨_, h2⟩ := hkS
  unfold isSINT sintMin sintMax at *
  omega

/-- The code of `samples2frames` on a multiple of `kChannels`: the assertion
holds and the exact quotient is returned. -/
theorem samples2frames_of_dvd (cfg : Config) (s : Int) (hk : 0 < cfg.kChannels)
    (hs : isSINT cfg s) (hd : cfg.kChannels ∣ s) :
    samples2frames cfg s = some (Int.tdiv s cfg.kChannels) := by
  have hm : Int.tmod s cfg.kChannels = 0 := Int.tmod_eq_zero_of_dvd hd
  have hw : wrapSINT cfg 0 = 0 := wrapSINT_of_isSINT cfg 0 (isSINT_zero cfg)
  simp only [samples2frames, sintMod, sintDiv, hm, hw, decide_True, DEBUG_ASSERT_true,
    wrapSINT_of_isSINT cfg _ (isSINT_tdiv cfg s _ hk hs)]
  rfl

/-- The chunk indices of the frames of `[s, e)`, for `0 ≤ s < e`, are the
integers from `s / kFrames` to `(e - 1) / kFrames`. -/
theorem indexForFrame_image (cfg : Config) (s e : Int) (hk : 0 < cfg.kFrames)
    (hs : 0 ≤ s) (hse : s < e) (he : isSINT cfg e) (i : Int) :
    (∃ f, s ≤ f ∧ f < e ∧ indexForFrame cfg f = some i) ↔
      (s / cfg.kFrames ≤ i ∧ i ≤ (e - 1) / cfg.kFrames) := by
  have hz := isSINT_zero cfg
  have hin : ∀ f, s ≤ f → f < e → indexForFrame cfg f = some (f / cfg.kFrames) :=
    fun f h1 h2 => indexForFrame_of_nonneg cfg f hk (by omega)
      (isSINT_of_between cfg 0 e f hz he (by omega) (by omega))
  constructor
  · rintro ⟨f, h1, h2, h3⟩
    rw [hin f h1 h2] at h3
    cases h3
    exact ⟨Int.ediv_le_ediv hk h1, Int.ediv_le_ediv hk (by omega)⟩
  · rintro ⟨h1, h2⟩
    rcases eq_or_lt_of_le h1 with h | h
    · exact ⟨s, le_refl s, hse, by rw [hin s (le_refl s) hse, h]⟩
    · have hlt : s < i * cfg.kFrames := by
        have a := Int.lt_ediv_add_one_mul_self s hk
        have b : (s / cfg.kFrames + 1) * cfg.kFrames ≤ i * cfg.kFrames :=
          mul_le_mul_of_nonneg_right (by omega) hk.le
        omega
      have hle : i * cfg.kFrames ≤ e - 1 := by
        have a := Int.ediv_mul_le (e - 1) (ne_of_gt hk)
        have b : i * cfg.kFrames ≤ (e - 1) / cfg.kFrames * cfg.kFrames :=
          mul_le_mul_of_nonneg_right h2 hk.le
        omega
      refine ⟨i * cfg.kFrames, hlt.le, by omega, ?_⟩
      rw [hin _ hlt.le (by omega), Int.mul_ediv_cancel i (ne_of_gt hk)]

/-- The field-wise comparison of `CoverInfo` does not depend on the side it is
called on. -/
theorem CoverInfo_eq_comm (a b : CoverInfo) : a.eq b = b.eq a := by
  simp only [CoverInfo.eq]
  congr 1
  · congr 1
    · congr 1
      · congr 1
        · exact decide_eq_decide.mpr eq_comm
        · exact decide_eq_decide.mpr eq_comm
      · exact decide_eq_decide.mpr eq_comm
    · exact decide_eq_decide.mpr eq_comm
  · exact decide_eq_decide.mpr eq_comm

/-- The comparison of `CoverArt` does not depend on the side it is called on. -/
theorem CoverArt_eq_comm (a b : CoverArt) : a.eq b = b.eq a := by
  have h : b.image.eq a.image = a.image.eq b.image := by
    simp only [QImage.eq]
    exact decide_eq_decide.mpr eq_comm
  simp only [CoverArt.eq, CoverInfo_eq_comm b.info a.info, h]
  cases a.info.eq b.info <;> cases a.image.isNull <;> cases b.image.isNull <;>
    cases a.image.eq b.image <;> rfl

/-! ## The claims -/

/-- C1: for every frame index `f ≥ 0` (a `SINT`, with `kFrames > 0`) the chunk
selected by `indexForFrame` contains `f`: both calls return, and with
`start = frameForIndex(indexForFrame(f))` one has `start ≤ f < start + kFrames`. -/
theorem indexForFrame_contains_frame (cfg : Config) (f : Int) (hk : 0 < cfg.kFrames)
    (hf0 : 0 ≤ f) (hf : isSINT cfg f) :
    ∃ i start, indexForFrame cfg f = some i ∧ frameForIndex cfg i = some start ∧
      start ≤ f ∧ f < start + cfg.kFrames := by
  have hq0 : 0 ≤ f / cfg.kFrames := Int.ediv_nonneg hf0 hk.le
  have hle : f / cfg.kFrames * cfg.kFrames ≤ f := Int.ediv_mul_le f (ne_of_gt hk)
  have hlt : f < (f / cfg.kFrames + 1) * cfg.kFrames := Int.lt_ediv_add_one_mul_self f hk
  have hp : isSINT cfg (f / cfg.kFrames * cfg.kFrames) :=
    isSINT_of_between cfg 0 f _ (isSINT_zero cfg) hf (mul_nonneg hq0 hk.le) hle
  refine ⟨f / cfg.kFrames, f / cfg.kFrames * cfg.kFrames,
    indexForFrame_of_nonneg cfg f hk hf0 hf,
    frameForIndex_of_nonneg cfg _ hq0 hp, hle, ?_⟩
  linarith

/-- Witness of C1 for frame 1499 with 1000 frames per chunk. -/
theorem indexForFrame_contains_frame_witness :
    0 < cfgScenario.kFrames ∧ (0 : Int) ≤ 1499 ∧ isSINT cfgScenario 1499 ∧
    ∃ i start, indexForFrame cfgScenario 1499 = some i ∧
      frameForIndex cfgScenario i = some start ∧
      start ≤ 1499 ∧ 1499 < start + cfgScenario.kFrames :=
  ⟨by decide, by decide, by decide,
    indexForFrame_contains_frame cfgScenario 1499 (by decide) (by decide) (by decide)⟩

/-- C2 (as amended): for every frame count `n ≥ 0` whose sample count
`n * kChannels` does not exceed the largest `SINT` (with `kChannels > 0`), the
exact-multiple assertion of `samples2frames` holds on `frames2samples(n)` and
`samples2frames(frames2samples(n)) == n`. -/
theorem samples2frames_frames2samples (cfg : Config) (n : Int) (hk : 0 < cfg.kChannels)
    (hn : 0 ≤ n) (hp : n * cfg.kChannels ≤ sintMax cfg) :
    0 = sintMod cfg (frames2samples cfg n) cfg.kChannels ∧
    samples2frames cfg (frames2samples cfg n) = some n := by
  have hS : isSINT cfg (n * cfg.kChannels) :=
    ⟨le_trans (isSINT_zero cfg).1 (mul_nonneg hn hk.le), hp⟩
  have hf : frames2samples cfg n = n * cfg.kChannels := by
    simp only [frames2samples, sintMul, wrapSINT_of_isSINT cfg _ hS]
  have hm : Int.tmod (n * cfg.kChannels) cfg.kChannels = 0 := Int.mul_tmod_left _ _
  have hw : wrapSINT cfg 0 = 0 := wrapSINT_of_isSINT cfg 0 (isSINT_zero cfg)
  refine ⟨by rw [hf, sintMod, hm, hw], ?_⟩
  rw [hf, samples2frames_of_dvd cfg _ hk hS (Dvd.intro_left n rfl),
    Int.mul_tdiv_cancel n (ne_of_gt hk)]

/-- Witness of C2 (as amended) for 8192 stereo frames. -/
theorem samples2frames_frames2samples_witness :
    0 < cfg64.kChannels ∧ (0 : Int) ≤ 8192 ∧ 8192 * cfg64.kChannels ≤ sintMax cfg64 ∧
    0 = sintMod cfg64 (frames2samples cfg64 8192) cfg64.kChannels ∧
    samples2frames cfg64 (frames2samples cfg64 8192) = some 8192 :=
  ⟨by decide, by decide, by decide,
    samples2frames_frames2samples cfg64 8192 (by decide) (by decide) (by decide)⟩

/-- Counterexample to C2 as stated: with 64-bit `SINT` and two channels the
non-negative frame count `2^62` has the sample count `2^63`, which is no `SINT`;
`frames2samples` yields `-2^63`, the assertion of `samples2frames` holds on it,
and the round trip returns `-2^62` instead of `2^62`. -/
theorem samples2frames_frames2samples_overflow :
    0 < cfg64.kChannels ∧ (0 : Int) ≤ 2 ^ 62 ∧ isSINT cfg64 (2 ^ 62) ∧
    frames2samples cfg64 (2 ^ 62) = -2 ^ 63 ∧
    samples2frames cfg64 (frames2samples cfg64 (2 ^ 62)) = some (-2 ^ 62) ∧
    samples2frames cfg64 (frames2samples cfg64 (2 ^ 62)) ≠ some (2 ^ 62) ∧
    samples2frames cfg64Release (frames2samples cfg64Release (2 ^ 62)) ≠ some (2 ^ 62) := by
  decide

/-- C4 (as amended): for every chunk index `i ≥ 0` whose first frame
`i * kFrames` does not exceed the largest `SINT` (with `kFrames > 0`),
`frameForIndex(i) == i * kFrames` and `indexForFrame(frameForIndex(i)) == i`. -/
theorem indexForFrame_frameForIndex (cfg : Config) (i : Int) (hk : 0 < cfg.kFrames)
    (hi : 0 ≤ i) (hp : i * cfg.kFrames ≤ sintMax cfg) :
    frameForIndex cfg i = some (i * cfg.kFrames) ∧
    (frameForIndex cfg i).bind (indexForFrame cfg) = some i := by
  have h0 : 0 ≤ i * cfg.kFrames := mul_nonneg hi hk.le
  have hS : isSINT cfg (i * cfg.kFrames) := ⟨le_trans (isSINT_zero cfg).1 h0, hp⟩
  have hF := frameForIndex_of_nonneg cfg i hi hS
  refine ⟨hF, ?_⟩
  rw [hF, Option.some_bind, indexForFrame_of_nonneg cfg _ hk h0 hS,
    Int.mul_ediv_cancel i (ne_of_gt hk)]

/-- Witness of C4 (as amended) for chunk 3 with 8192 frames per chunk. -/
theorem indexForFrame_frameForIndex_witness :
    0 < cfg64.kFrames ∧ (0 : Int) ≤ 3 ∧ 3 * cfg64.kFrames ≤ sintMax cfg64 ∧
    frameForIndex cfg64 3 = some (3 * cfg64.kFrames) ∧
    (frameForIndex cfg64 3).bind (indexForFrame cfg64) = some 3 :=
  ⟨by decide, by decide, by decide,
    indexForFrame_frameForIndex cfg64 3 (by decide) (by decide) (by decide)⟩

/-- Counterexample to C4 as stated: with 64-bit `SINT` and 8192 frames per chunk
the chunk index `2^50 ≥ 0` has the first frame `2^63`, which is no `SINT`;
`frameForIndex` yields `-2^63`, not `i * kFrames`, and `indexForFrame` of that
fails its assertion (and yields `-2^50` when assertions are compiled out). -/
theorem indexForFrame_frameForIndex_overflow :
    0 < cfg64.kFrames ∧ (0 : Int) ≤ 2 ^ 50 ∧ isSINT cfg64 (2 ^ 50) ∧
    frameForIndex cfg64 (2 ^ 50) = some (-2 ^ 63) ∧
    frameForIndex cfg64 (2 ^ 50) ≠ some (2 ^ 50 * cfg64.kFrames) ∧
    (frameForIndex cfg64 (2 ^ 50)).bind (indexForFrame cfg64) = none ∧
    (frameForIndex cfg64Release (2 ^ 50)).bind (indexForFrame cfg64Release) = some (-2 ^ 50) := by
  decide

/-- C5: for a sample count `s` (a `SINT`, with `0 < kChannels` a `SINT`), with
assertions active `samples2frames` accepts `s` if and only if `s` is an exact
multiple of `kChannels`, and rejects every other `s`; on every multiple it
returns the quotient `s / kChannels`, which is exact, and
`frames2samples(samples2frames(s)) == s`. -/
theorem samples2frames_accepts_iff (cfg : Config) (s : Int) (hk : 0 < cfg.kChannels)
    (hkS : isSINT cfg cfg.kChannels) (hs : isSINT cfg s) :
    (cfg.debugAsserts = true →
      (((samples2frames cfg s).isSome ↔ cfg.kChannels ∣ s) ∧
       (¬ cfg.kChannels ∣ s → samples2frames cfg s = none))) ∧
    (cfg.kChannels ∣ s →
      samples2frames cfg s = some (Int.tdiv s cfg.kChannels) ∧
      Int.tdiv s cfg.kChannels * cfg.kChannels = s ∧
      (samples2frames cfg s).map (frames2samples cfg) = some s) := by
  have hyes : cfg.kChannels ∣ s →
      samples2frames cfg s = some (Int.tdiv s cfg.kChannels) ∧
      Int.tdiv s cfg.kChannels * cfg.kChannels = s ∧
      (samples2frames cfg s).map (frames2samples cfg) = some s := by
    intro hd
    have hr := samples2frames_of_dvd cfg s hk hs hd
    have hc : Int.tdiv s cfg.kChannels * cfg.kChannels = s := Int.tdiv_mul_cancel hd
    refine ⟨hr, hc, ?_⟩
    rw [hr, Option.map_some', frames2samples, sintMul, hc, wrapSINT_of_isSINT cfg s hs]
  have hno : cfg.debugAsserts = true → ¬ cfg.kChannels ∣ s → samples2frames cfg s = none := by
    intro hdbg hnd
    have hm : Int.tmod s cfg.kChannels ≠ 0 := fun h => hnd (Int.dvd_of_tmod_eq_zero h)
    have hd : decide (0 = sintMod cfg s cfg.kChannels) = false := by
      rw [sintMod, wrapSINT_of_isSINT cfg _ (isSINT_tmod cfg s _ hk hkS)]
      exact decide_eq_false (fun h => hm h.symm)
    simp only [samples2frames, hd, DEBUG_ASSERT_false cfg hdbg]
    rfl
  refine ⟨fun hdbg => ⟨⟨fun h => ?_, fun hd => ?_⟩, hno hdbg⟩, hyes⟩
  · by_contra hnd
    rw [hno hdbg hnd] at h
    exact absurd h (by simp)
  · rw [(hyes hd).1]
    rfl

/-- Witness of C5 for 7 samples and for 8 samples in a stereo build. -/
theorem samples2frames_accepts_iff_witness :
    0 < cfg64.kChannels ∧ isSINT cfg64 cfg64.kChannels ∧ isSINT cfg64 7 ∧
    samples2frames cfg64 7 = none ∧ samples2frames cfg64 8 = some 4 :=
  ⟨by decide, by decide, by decide,
    ((samples2frames_accepts_iff cfg64 7 (by decide) (by decide) (by decide)).1 rfl).2
      (by decide),
    ((samples2frames_accepts_iff cfg64 8 (by decide) (by decide) (by decide)).2
      (by decide)).1⟩

/-- C9: `indexForFrame` divides with truncation toward zero, so with assertions
unchecked every frame index `f` with `-kFrames < f < 0` (so that `kFrames > 0`)
gets the chunk index `0` of frame `0`, whose first frame `0` is greater than `f`:
chunk `0` does not contain `f`. -/
theorem indexForFrame_negative_frame (cfg : Config) (f : Int)
    (hdbg : cfg.debugAsserts = false) (hlo : -cfg.kFrames < f) (hhi : f < 0) :
    Int.tdiv f cfg.kFrames = 0 ∧
    indexForFrame cfg f = some 0 ∧ indexForFrame cfg 0 = some 0 ∧
    (indexForFrame cfg f).bind (frameForIndex cfg) = some 0 ∧ (0 : Int) > f ∧
    ¬ ∃ start, (indexForFrame cfg f).bind (frameForIndex cfg) = some start ∧
        start ≤ f ∧ f < start + cfg.kFrames := by
  have ht : Int.tdiv f cfg.kFrames = 0 := by
    have h := Int.tdiv_eq_zero_of_lt (a := -f) (b := cfg.kFrames) (by omega) (by omega)
    rw [Int.neg_tdiv] at h
    omega
  have hw : wrapSINT cfg 0 = 0 := wrapSINT_of_isSINT cfg 0 (isSINT_zero cfg)
  have h1 : indexForFrame cfg f = some 0 := by
    simp only [indexForFrame, DEBUG_ASSERT_release cfg hdbg, sintDiv, ht, hw]
    rfl
  have h2 : indexForFrame cfg 0 = some 0 := by
    simp only [indexForFrame, DEBUG_ASSERT_release cfg hdbg, sintDiv, Int.zero_tdiv, hw]
    rfl
  have h3 : frameForIndex cfg 0 = some 0 := by
    simp only [frameForIndex, DEBUG_ASSERT_release cfg hdbg, sintMul, zero_mul, hw]
    rfl
  have h4 : (indexForFrame cfg f).bind (frameForIndex cfg) = some 0 := by
    rw [h1, Option.some_bind, h3]
  refine ⟨ht, h1, h2, h4, hhi, ?_⟩
  rintro ⟨start, hs, hle, -⟩
  rw [h4] at hs
  cases hs
  omega

/-- Witness of C9 for frame `-1` in a release build with 8192 frames per chunk. -/
theorem indexForFrame_negative_frame_witness :
    cfg64Release.debugAsserts = false ∧ 0 < cfg64Release.kFrames ∧
    -cfg64Release.kFrames < -1 ∧ (-1 : Int) < 0 ∧
    indexForFrame cfg64Release (-1) = some 0 ∧ indexForFrame cfg64Release 0 = some 0 :=
  ⟨rfl, by decide, by decide, by decide,
    (indexForFrame_negative_frame cfg64Release (-1) rfl (by decide) (by decide)).2.1,
    (indexForFrame_negative_frame cfg64Release (-1) rfl (by decide) (by decide)).2.2.1⟩

/-- C6: for every frame range `[s, e)` with `0 ≤ s < e` (and `e` a `SINT`,
`kFrames > 0`) the chunk indices `indexForFrame(f)` of its frames are exactly the
integers from `indexForFrame(s)` to `indexForFrame(e - 1)`, each of them hit by a
frame of the range; with `kFrames = 1000` the range `[0, 1500)` touches exactly
the chunks 0 and 1. -/
theorem indexForFrame_range_chunks (cfg : Config) (s e : Int) (hk : 0 < cfg.kFrames)
    (hs : 0 ≤ s) (hse : s < e) (he : isSINT cfg e) :
    (∃ lo hi, indexForFrame cfg s = some lo ∧ indexForFrame cfg (e - 1) = some hi ∧
      ∀ i : Int, (∃ f, s ≤ f ∧ f < e ∧ indexForFrame cfg f = some i) ↔ (lo ≤ i ∧ i ≤ hi)) ∧
    (cfg.kFrames = 1000 → isSINT cfg 1500 →
      ∀ i : Int, (∃ f, 0 ≤ f ∧ f < 1500 ∧ indexForFrame cfg f = some i) ↔ (i = 0 ∨ i = 1)) := by
  have hz := isSINT_zero cfg
  constructor
  · refine ⟨s / cfg.kFrames, (e - 1) / cfg.kFrames,
      indexForFrame_of_nonneg cfg s hk hs
        (isSINT_of_between cfg 0 e s hz he hs hse.le),
      indexForFrame_of_nonneg cfg (e - 1) hk (by omega)
        (isSINT_of_between cfg 0 e _ hz he (by omega) (by omega)),
      indexForFrame_image cfg s e hk hs hse he⟩
  · intro h1000 h1500 i
    rw [indexForFrame_image cfg 0 1500 hk (le_refl 0) (by norm_num) h1500 i, h1000]
    omega

/-- Witness of C6 for the range `[0, 1500)` with 1000 frames per chunk. -/
theorem indexForFrame_range_chunks_witness :
    0 < cfgScenario.kFrames ∧ (0 : Int) ≤ 0 ∧ (0 : Int) < 1500 ∧ isSINT cfgScenario 1500 ∧
    ∀ i : Int, (∃ f, 0 ≤ f ∧ f < 1500 ∧ indexForFrame cfgScenario f = some i) ↔
      (i = 0 ∨ i = 1) :=
  ⟨by decide, by decide, by decide, by decide,
    (indexForFrame_range_chunks cfgScenario 0 1500 (by decide) (by decide) (by decide)
      (by decide)).2 rfl (by decide)⟩

/-- C3: with assertions active, for every chunk: `beginReading` succeeds if and
only if the state is `READY`, and then only the state changes, to `READ_PENDING`;
`finishReading` succeeds if and only if the state is `READ_PENDING`, and then only
the state changes, to `READY`; from every other state, `FREE` included, the
attempt is rejected by the assertion. -/
theorem beginReading_finishReading_accept (cfg : Config) (c : CachingReaderChunk)
    (hdbg : cfg.debugAsserts = true) :
    ((c.beginReading cfg).isSome ↔ c.m_state = State.READY) ∧
    (c.m_state = State.READY →
      c.beginReading cfg = some { c with m_state := State.READ_PENDING }) ∧
    (c.m_state ≠ State.READY → c.beginReading cfg = none) ∧
    ((c.finishReading cfg).isSome ↔ c.m_state = State.READ_PENDING) ∧
    (c.m_state = State.READ_PENDING →
      c.finishReading cfg = some { c with m_state := State.READY }) ∧
    (c.m_state ≠ State.READ_PENDING → c.finishReading cfg = none) ∧
    (c.m_state = State.FREE → c.beginReading cfg = none ∧ c.finishReading cfg = none) := by
  obtain ⟨idx, buf, cnt, st, prv, nxt⟩ := c
  cases st <;>
    simp [CachingReaderChunk.beginReading, CachingReaderChunk.finishReading,
      DEBUG_ASSERT, hdbg]

/-- Witness of C3 on a `READY` chunk and on a `FREE` chunk. -/
theorem beginReading_finishReading_accept_witness :
    cfg64.debugAsserts = true ∧
    readyChunk.beginReading cfg64 = some { readyChunk with m_state := State.READ_PENDING } ∧
    readyChunk.finishReading cfg64 = none ∧
    freeChunk.beginReading cfg64 = none :=
  ⟨rfl,
    (beginReading_finishReading_accept cfg64 readyChunk rfl).2.1 rfl,
    (beginReading_finishReading_accept cfg64 readyChunk rfl).2.2.2.2.2.1 (by decide),
    ((beginReading_finishReading_accept cfg64 freeChunk rfl).2.2.2.2.2.2 rfl).1⟩

/-- Counterexample to C7 as stated: on a `FREE` chunk both `beginReading` and
`finishReading` fail their assertion, so no single one of these transitions
moves the chunk from `FREE` to `READ_PENDING`. -/
theorem beginReading_free_rejected :
    freeChunk.m_state = State.FREE ∧
    freeChunk.beginReading cfg64 = none ∧ freeChunk.finishReading cfg64 = none ∧
    ¬ ∃ c, (freeChunk.beginReading cfg64 = some c ∨ freeChunk.finishReading cfg64 = some c) ∧
        c.m_state = State.READ_PENDING := by
  have h1 : freeChunk.beginReading cfg64 = none := by decide
  have h2 : freeChunk.finishReading cfg64 = none := by decide
  refine ⟨rfl, h1, h2, ?_⟩
  rintro ⟨c, hc | hc, -⟩
  · rw [h1] at hc; cases hc
  · rw [h2] at hc; cases hc

/-- C7 (as amended): with assertions active the chunk has no edge
`FREE -> READ_PENDING`: `beginReading` and `finishReading` both reject a `FREE`
chunk; whenever one of them yields a chunk in state `READ_PENDING`, the chunk
was `READY` before; and from `READ_PENDING`, `finishReading` moves it to `READY`. -/
theorem read_pending_only_from_ready (cfg : Config) (c : CachingReaderChunk)
    (hdbg : cfg.debugAsserts = true) :
    (c.m_state = State.FREE → c.beginReading cfg = none ∧ c.finishReading cfg = none) ∧
    (∀ d, (c.beginReading cfg = some d ∨ c.finishReading cfg = some d) →
      d.m_state = State.READ_PENDING → c.m_state = State.READY) ∧
    (c.m_state = State.READ_PENDING →
      ∃ d, c.finishReading cfg = some d ∧ d.m_state = State.READY) := by
  obtain ⟨idx, buf, cnt, st, prv, nxt⟩ := c
  cases st <;>
    simp [CachingReaderChunk.beginReading, CachingReaderChunk.finishReading,
      DEBUG_ASSERT, hdbg]

/-- Witness of C7 (as amended): the `READY` chunk goes to `READ_PENDING` and from
there back to `READY`. -/
theorem read_pending_only_from_ready_witness :
    cfg64.debugAsserts = true ∧
    (freeChunk.beginReading cfg64 = none ∧ freeChunk.finishReading cfg64 = none) ∧
    ∃ d, CachingReaderChunk.finishReading cfg64
        { readyChunk with m_state := State.READ_PENDING } = some d ∧
      d.m_state = State.READY :=
  ⟨rfl, (read_pending_only_from_ready cfg64 freeChunk rfl).1 rfl,
    (read_pending_only_from_ready cfg64
      { readyChunk with m_state := State.READ_PENDING } rfl).2.2 rfl⟩

/-- C8: for all `CoverArt` values `a` and `b`, `a == b` holds if and only if
`a.info == b.info` and one of the images is null or the images are equal, so the
image counts only if both images are non-null; and `a != b` is the negation of
`a == b`. -/
theorem coverArt_eq_iff (a b : CoverArt) :
    (a.eq b = true ↔
      (a.info.eq b.info = true ∧
        (a.image.isNull = true ∨ b.image.isNull = true ∨ a.image.eq b.image = true))) ∧
    ((a.image.isNull = true ∨ b.image.isNull = true) →
      (a.eq b = true ↔ a.info.eq b.info = true)) ∧
    (a.image.isNull = false → b.image.isNull = false →
      (a.eq b = true ↔ (a.info.eq b.info = true ∧ a.image = b.image))) ∧
    (a.ne b = true ↔ ¬ a.eq b = true) ∧ a.ne b = !(a.eq b) := by
  have hi : b.info.eq a.info = a.info.eq b.info := CoverInfo_eq_comm _ _
  have hq : b.image.eq a.image = a.image.eq b.image := by
    simp only [QImage.eq]
    exact decide_eq_decide.mpr eq_comm
  have hd : a.image.eq b.image = true ↔ a.image = b.image := by
    simp only [QImage.eq, decide_eq_true_eq]
  refine ⟨?_, ?_, ?_, ?_, rfl⟩
  · simp only [CoverArt.eq, hi, hq, Bool.and_eq_true, Bool.or_eq_true]
    tauto
  · intro h
    simp only [CoverArt.eq, hi, hq, Bool.and_eq_true, Bool.or_eq_true]
    tauto
  · intro ha hb
    simp only [CoverArt.eq, hi, hq, ha, hb, Bool.and_eq_true, Bool.or_eq_true, hd]
    simp
  · simp only [CoverArt.ne, Bool.not_eq_true', Bool.not_eq_true]

/-- C10: `CoverArt::operator==` is reflexive and symmetric but not transitive:
`artA`, `artB`, `artC` have equal info, the image of `artB` is null and the
images of `artA` and `artC` are non-null and different, and `artA == artB`,
`artB == artC` hold while `artA == artC` does not. -/
theorem coverArt_eq_not_transitive :
    (∀ a : CoverArt, a.eq a = true) ∧
    (∀ a b : CoverArt, a.eq b = b.eq a) ∧
    (artA.info = artB.info ∧ artB.info = artC.info ∧ artB.image.isNull = true ∧
      artA.image.isNull = false ∧ artC.image.isNull = false ∧ artA.image ≠ artC.image ∧
      artA.eq artB = true ∧ artB.eq artC = true ∧ artA.eq artC = false) ∧
    ¬ ∀ a b c : CoverArt, a.eq b = true → b.eq c = true → a.eq c = true := by
  have hex : artA.info = artB.info ∧ artB.info = artC.info ∧ artB.image.isNull = true ∧
      artA.image.isNull = false ∧ artC.image.isNull = false ∧ artA.image ≠ artC.image ∧
      artA.eq artB = true ∧ artB.eq artC = true ∧ artA.eq artC = false := by
    decide
  refine ⟨?_, CoverArt_eq_comm, hex, ?_⟩
  · intro a
    simp [CoverArt.eq, CoverInfo.eq, QImage.eq]
  · intro h
    have := h artA artB artC hex.2.2.2.2.2.2.1 hex.2.2.2.2.2.2.2.1
    rw [hex.2.2.2.2.2.2.2.2] at this
    cases this

end Mixxx
